import Mathlib

/-!
Verification development for the Stem Lab backend (`src/backend/server.py`).

Modelling conventions:
* Machine timestamps (`datetime.utcnow()`) are modelled as `Nat` seconds.
  The code serialises a timestamp as `isoformat() + "Z"` and parses it back
  before comparing; ISO-8601 rendering of UTC timestamps is injective and
  order-preserving, so storing the underlying `Nat` (for code expiry, which
  is only ever compared) and the rendering `isoZ` (for account/metadata
  fields, which are only ever carried as strings) is faithful.
* Python dicts keyed by strings are modelled as association lists; updating
  a key removes any previous binding and conses the new one, so lookups
  agree with dict semantics and each key is bound at most once.
* String helpers (`trim`, `lower`, prefix tests, splitting) are implemented
  structurally on `List Char` so that the kernel can evaluate them; they
  mirror `str.strip` / `str.lower` / `str.startswith` / `str.partition`
  on the ASCII inputs the claims use.
* `hashlib.sha256` is an external primitive; the verify endpoint takes the
  hash function as a parameter (no claim depends on its value).
-/

namespace StemLab

/-- HTTP failure carrying the FastAPI status code and detail string,
mirroring `HTTPException(status_code=..., detail=...)`. -/
structure HTTPError where
  status : Nat
  detail : String
deriving Repr, DecidableEq

/-- Char-list whitespace trim used to model Python `str.strip()`. -/
def trimChars (cs : List Char) : List Char :=
  ((cs.dropWhile Char.isWhitespace).reverse.dropWhile Char.isWhitespace).reverse

/-- Model of Python `str.strip()` (ASCII whitespace). -/
def strTrim (s : String) : String := ⟨trimChars s.data⟩

/-- Model of Python `str.lower()` (ASCII range). -/
def strLower (s : String) : String := ⟨s.data.map Char.toLower⟩

/-- Source: `normalize_email(email) = email.strip().lower()`. -/
def normalize_email (email : String) : String := strLower (strTrim email)

/-- Rendering of a timestamp as the code's `datetime.isoformat() + "Z"`
string; we keep the second count as the digits. Nonempty and injective. -/
def isoZ (t : Nat) : String := toString t ++ "Z"

/-- Source: `CODE_TTL = timedelta(minutes=10)`, in seconds. -/
def CODE_TTL : Nat := 600

/-- One entry of `PENDING_CODES`: the stored 6-digit code string and the
absolute expiry instant (stored by the code as an ISO string, compared as
an instant). -/
structure CodeEntry where
  code : String
  expires : Nat
deriving Repr, DecidableEq

/-- Association-list map used to model the string-keyed Python dicts. -/
abbrev PendingMap := List (String × CodeEntry)

/-- Dict lookup: first binding of the key wins. -/
def lookupCode (k : String) : PendingMap → Option CodeEntry
  | [] => none
  | (k₁, v) :: rest => if k₁ = k then some v else lookupCode k rest

/-- Dict deletion (`dict.pop(k, None)`): removes every binding of `k`. -/
def eraseCode (k : String) (m : PendingMap) : PendingMap :=
  m.filter (fun p => p.1 ≠ k)

/-- Dict assignment (`d[k] = v`): binds `k` to `v`, dropping old bindings. -/
def setCode (k : String) (v : CodeEntry) (m : PendingMap) : PendingMap :=
  (k, v) :: eraseCode k m

/-- Source `store_verification_code`: store the code under the normalized
email with expiry `now + CODE_TTL`, replacing any prior pending code. -/
def store_verification_code (email code : String) (now : Nat) (m : PendingMap) : PendingMap :=
  setCode (normalize_email email) ⟨code, now + CODE_TTL⟩ m

/-- Source `pop_verification_code`: NotFound if no entry for the normalized
email; Expired if `now` is strictly after the stored expiry; Mismatch if the
codes differ; on success deletes the entry and returns it. The second
component is the `PENDING_CODES` state after the call (unchanged on every
failure, since the code raises before mutating). -/
def pop_verification_code (email code : String) (now : Nat) (m : PendingMap) :
    Except HTTPError CodeEntry × PendingMap :=
  match lookupCode (normalize_email email) m with
  | none => (.error ⟨400, "No verification code requested for this email."⟩, m)
  | some entry =>
    if now > entry.expires then
      (.error ⟨400, "Verification code has expired."⟩, m)
    else if entry.code ≠ code then
      (.error ⟨400, "Invalid verification code."⟩, m)
    else
      (.ok entry, eraseCode (normalize_email email) m)

/-- Number of bindings a key has in the map (for the one-live-entry
invariant). -/
def countKey (k : String) (m : PendingMap) : Nat :=
  (m.filter (fun p => p.1 = k)).length

-- Basic map lemmas.

/-- Account record as written by `record_account` (the code sets exactly
these five keys on every write). -/
structure Account where
  email : String
  name : String
  passwordHash : String
  createdAt : String
  updatedAt : String
deriving Repr, DecidableEq

/-- The `accounts` table: normalized email to account record. -/
abbrev AccountMap := List (String × Account)

/-- Dict lookup on the account table. -/
def lookupAccount (k : String) : AccountMap → Option Account
  | [] => none
  | (k₁, v) :: rest => if k₁ = k then some v else lookupAccount k rest

/-- Dict assignment on the account table. -/
def setAccount (k : String) (v : Account) (m : AccountMap) : AccountMap :=
  (k, v) :: m.filter (fun p => p.1 ≠ k)

/-- Source `record_account`: keyed by the normalized email; keeps an
existing nonempty `createdAt` (the code computes
`account.get("createdAt") or now`, so a missing or empty value falls back
to `now`), overwrites every other field, stamps `updatedAt`, and rewrites
the table. Returns the written record and the new table. -/
def record_account (email name password_hash : String) (now : Nat) (accounts : AccountMap) :
    Account × AccountMap :=
  let key := normalize_email email
  let createdAt :=
    match lookupAccount key accounts with
    | none => isoZ now
    | some a => if a.createdAt = "" then isoZ now else a.createdAt
  let account : Account := ⟨email, name, password_hash, createdAt, isoZ now⟩
  (account, setAccount key account accounts)

/-- JSON summary returned by the verify endpoint. -/
structure AccountSummary where
  email : String
  name : String
  createdAt : String
  updatedAt : String
deriving Repr, DecidableEq

/-- Body of `POST /api/auth/verify`: a string-to-string JSON object; absent
keys are `none` (`payload.get(...)`). -/
structure VerifyPayload where
  email : Option String
  code : Option String
  password : Option String
  passwordHash : Option String
  name : Option String
deriving Repr, DecidableEq

/-- Model of `payload.get(k) or ""`. -/
def orEmpty : Option String → String
  | none => ""
  | some s => s

/-- The two pieces of process-wide mutable state the auth flow touches. -/
structure ServerState where
  pending : PendingMap
  accounts : AccountMap
deriving Repr, DecidableEq

/-- Source `verify_code` endpoint: trims email/code/name, requires email,
code and a password or hash, redeems the pending code, then records the
account (hashing the password when no hash was supplied) and returns the
account summary. `hashFn` is the external `hashlib.sha256` hex-digest
primitive, passed as a parameter. The second component is the state after
the call. -/
def verify_code (hashFn : String → String) (p : VerifyPayload) (now : Nat) (st : ServerState) :
    Except HTTPError AccountSummary × ServerState :=
  let email := strTrim (orEmpty p.email)
  let code := strTrim (orEmpty p.code)
  let password := orEmpty p.password
  let passwordHash := orEmpty p.passwordHash
  let name := strTrim (orEmpty p.name)
  if email = "" ∨ code = "" ∨ (password = "" ∧ passwordHash = "") then
    (.error ⟨400, "Email, code, and password are required."⟩, st)
  else
    match pop_verification_code email code now st.pending with
    | (.error err, pending₁) => (.error err, ⟨pending₁, st.accounts⟩)
    | (.ok _, pending₁) =>
      let ph := if passwordHash = "" then hashFn password else passwordHash
      let acc := record_account email name ph now st.accounts
      (.ok ⟨acc.1.email, acc.1.name, acc.1.createdAt, acc.1.updatedAt⟩,
       ⟨pending₁, acc.2⟩)

/-- Value of a standard-alphabet base64 character, `none` for any other
character. -/
def b64val (c : Char) : Option Nat :=
  if 'A' ≤ c ∧ c ≤ 'Z' then some (c.toNat - 65)
  else if 'a' ≤ c ∧ c ≤ 'z' then some (c.toNat - 97 + 26)
  else if '0' ≤ c ∧ c ≤ '9' then some (c.toNat - 48 + 52)
  else if c = '+' then some 62
  else if c = '/' then some 63
  else none

/-- Character of the standard base64 alphabet at index `n` (`n < 64`). -/
def b64chr (n : Nat) : Char :=
  if n < 26 then Char.ofNat (65 + n)
  else if n < 52 then Char.ofNat (97 + (n - 26))
  else if n < 62 then Char.ofNat (48 + (n - 52))
  else if n = 62 then '+'
  else '/'

/-- Streaming loop of CPython `binascii.a2b_b64` in its default lenient
mode (as called by `b64decode` without `validate`): characters outside
the alphabet are skipped; a padding character closes the stream once at
least two data characters of the current quad and enough pads were seen;
a trailing quad of one data character, or of two or three data characters
without padding, is an error. State: remaining input, position inside the
current quad, accumulated bits, pads seen, output bytes (reversed). -/
def b64decodeAux : List Char → Nat → Nat → Nat → List Nat → Except String (List Nat)
  | [], quadPos, _, _, out =>
    if quadPos = 0 then .ok out.reverse
    else if quadPos = 1 then
      .error "Invalid base64-encoded string: number of data characters cannot be 1 more than a multiple of 4"
    else .error "Incorrect padding"
  | ch :: rest, quadPos, leftchar, pads, out =>
    if ch = '=' then
      if 2 ≤ quadPos ∧ 4 ≤ quadPos + (pads + 1) then .ok out.reverse
      else if 2 ≤ quadPos then b64decodeAux rest quadPos leftchar (pads + 1) out
      else b64decodeAux rest quadPos leftchar pads out
    else
      match b64val ch with
      | none => b64decodeAux rest quadPos leftchar pads out
      | some v =>
        let lc := leftchar * 64 + v
        if quadPos = 0 then b64decodeAux rest 1 lc pads out
        else if quadPos = 1 then b64decodeAux rest 2 (lc % 16) pads (lc / 16 :: out)
        else if quadPos = 2 then b64decodeAux rest 3 (lc % 4) pads (lc / 4 :: out)
        else b64decodeAux rest 0 0 pads (lc :: out)

/-- Model of Python `base64.b64decode(value)` on a `str` argument: the
implicit ASCII encode rejects non-ASCII input, then the lenient decoder
runs. Bytes are `Nat` values below 256. -/
def b64decode (s : String) : Except String (List Nat) :=
  if s.data.any (fun c => 128 ≤ c.toNat) then .error "ASCII encode failed"
  else b64decodeAux s.data 0 0 0 []

/-- Standard base64 encoding of a byte list (Python `base64.b64encode`). -/
def b64encodeChars : List Nat → List Char
  | a :: b :: c :: rest =>
    b64chr (a / 4) :: b64chr ((a % 4) * 16 + b / 16) ::
      b64chr ((b % 16) * 4 + c / 64) :: b64chr (c % 64) :: b64encodeChars rest
  | [a, b] => [b64chr (a / 4), b64chr ((a % 4) * 16 + b / 16), b64chr ((b % 16) * 4), '=']
  | [a] => [b64chr (a / 4), b64chr ((a % 4) * 16), '=', '=']
  | [] => []

/-- Source `encode_audio_file`: read the bytes and wrap them as a tagged
inline payload. -/
def encode_audio_file (data : List Nat) : String :=
  "data:audio/wav;base64," ++ ⟨b64encodeChars data⟩

/-- Model of `str.partition(sep)` for a single-character separator:
`none` when the separator does not occur, otherwise the pieces before and
after its first occurrence. -/
def partitionChar (sep : Char) : List Char → Option (List Char × List Char)
  | [] => none
  | ch :: rest =>
    if ch = sep then some ([], rest)
    else
      match partitionChar sep rest with
      | none => none
      | some (b, a) => some (ch :: b, a)

/-- Model of the Python `needle in haystack` substring test. -/
def charsHaveInfix : List Char → List Char → Bool
  | [], needle => needle.isEmpty
  | h :: t, needle => needle.isPrefixOf (h :: t) || charsHaveInfix t needle

/-- Source `decode_data_url`: strip, then either decode the part after the
first comma of a `data:` URL whose header carries `;base64`, or decode the
whole value as raw base64. -/
def decode_data_url (value : String) : Except String (List Nat) :=
  let v := trimChars value.data
  if ("data:".data).isPrefixOf v then
    let pieces :=
      match partitionChar ',' v with
      | none => (v, ([] : List Char))
      | some (b, a) => (b, a)
    if charsHaveInfix pieces.1 (";base64".data) then b64decode ⟨pieces.2⟩
    else .error "Unsupported data URL format"
  else b64decode ⟨v⟩

/-- JSON value appearing in the `stems` mapping of a library-create
request: a string or anything else. -/
inductive JVal
  | str (s : String)
  | nonstr
deriving Repr, DecidableEq

/-- Metadata record written to `meta.json` by `save_library`. -/
structure LibMeta where
  id : String
  title : String
  stems : List String
  createdAt : String
  bundle : String
deriving Repr, DecidableEq

/-- One session directory of the library root: the `.wav` files written
(name and bytes, in write order) and the `meta.json` record, if written. -/
structure LibraryDir where
  files : List (String × List Nat)
  meta : Option LibMeta
deriving Repr, DecidableEq

/-- Model of `payload.get("title") or "Session"`. -/
def titleOrDefault : Option String → String
  | none => "Session"
  | some t => if t = "" then "Session" else t

/-- Stem-writing loop of `save_library`: skips non-string values, decodes
string values and appends the decoded file, stopping with a 400 error at
the first string value that fails to decode (files already written
remain). -/
def writeStems : List (String × JVal) → List (String × List Nat) →
    Except HTTPError Unit × List (String × List Nat)
  | [], files => (.ok (), files)
  | (name, v) :: rest, files =>
    match v with
    | .nonstr => writeStems rest files
    | .str s =>
      match decode_data_url s with
      | .error e => (.error ⟨400, "Could not decode stem " ++ name ++ ": " ++ e⟩, files)
      | .ok data => writeStems rest (files ++ [(name, data)])

/-- Source `save_library`: rejects a missing, non-dict or empty `stems`
mapping; otherwise creates the session directory, runs the stem-writing
loop, and on success writes the metadata record (listing every key of the
request mapping) and the bundle. Returns the HTTP result and the resulting
session directory (`none` when the directory was never created). -/
def save_library (title : Option String) (stems : Option (List (String × JVal)))
    (item_id : String) (now : Nat) : Except HTTPError LibMeta × Option LibraryDir :=
  match stems with
  | none => (.error ⟨400, "Payload must include stems"⟩, none)
  | some entries =>
    if entries.isEmpty then (.error ⟨400, "Payload must include stems"⟩, none)
    else
      match writeStems entries [] with
      | (.error e, files) => (.error e, some ⟨files, none⟩)
      | (.ok _, files) =>
        let meta : LibMeta := ⟨item_id, titleOrDefault title, entries.map Prod.fst, isoZ now,
          "/api/library/" ++ item_id ++ "/bundle"⟩
        (.ok meta, some ⟨files, some meta⟩)

/-- Source `get_library_item`: 404 when the directory or its `meta.json`
is missing; otherwise the metadata with every discovered `.wav` file
re-encoded under `stems`. -/
def get_library_item (dir : Option LibraryDir) :
    Except HTTPError (LibMeta × List (String × String)) :=
  match dir with
  | none => .error ⟨404, "Session not found."⟩
  | some d =>
    match d.meta with
    | none => .error ⟨404, "Session not found."⟩
    | some m => .ok (m, d.files.map (fun p => (p.1, encode_audio_file p.2)))

/-- The session record (metadata) held by a session directory, if any. -/
def sessionRecord (dir : Option LibraryDir) : Option LibMeta :=
  dir.bind LibraryDir.meta

/-- Parse result of one `meta.json` found by the `*/meta.json` glob:
either the parsed record or a parse failure. -/
inductive MetaFile
  | parsed (m : LibMeta)
  | invalid
deriving Repr, DecidableEq

/-- The successfully parsed record, if any. -/
def parsedMeta : MetaFile → Option LibMeta
  | .parsed m => some m
  | .invalid => none

/-- Source `list_library`: parse every session metadata record, silently
skip failures, and sort ascending by the creation-timestamp string
(`item.get("createdAt", "")`; records written by this code always carry
the field). -/
def list_library (fs : List MetaFile) : List LibMeta :=
  (fs.filterMap parsedMeta).mergeSort (fun a b => decide (a.createdAt ≤ b.createdAt))

/-- Last path component (model of `pathlib` name extraction). -/
def lastComponent (cs : List Char) : List Char :=
  (cs.reverse.takeWhile (fun c => c ≠ '/')).reverse

/-- Model of `pathlib.Path(p).suffix`: the extension of the last
component, from its last dot on, empty when the last dot is the first
character or the last character or absent. -/
def pathSuffix (p : String) : String :=
  let name := lastComponent p.data
  match partitionChar '.' name.reverse with
  | none => ""
  | some (before, after) =>
    if before = [] ∨ after = [] then "" else ⟨'.' :: before.reverse⟩

/-- Source `VIDEO_EXTENSIONS`. -/
def VIDEO_EXTENSIONS : List String :=
  [".mp4", ".mov", ".m4v", ".mkv", ".webm", ".avi", ".mpg", ".mpeg"]

/-- Source `EXPECTED_STEMS`. -/
def EXPECTED_STEMS : List String := ["vocals", "drums", "bass", "other"]

/-- Source `DEFAULT_MODEL`. -/
def DEFAULT_MODEL : String := "spleeter:4stems"

/-- External collaborators and output-directory facts for one separation
request: the media-conversion result, the model-initialization and
separation-call outcomes, whether the expected output directory
materialized, and the bytes of each expected stem file present in it. -/
structure SepEnv where
  convert : Except String (List Nat)
  modelInit : Except String Unit
  runSeparation : Except String Unit
  outDirExists : Bool
  stemFile : String → Option (List Nat)

/-- What was handed to the separation model: the original upload or the
audio produced by the conversion step. -/
inductive SepSource
  | original (filename : String)
  | convertedAudio (data : List Nat)
deriving Repr, DecidableEq

/-- Successful separation response, together with the observable trace of
whether conversion ran and what was separated. -/
structure SepOk where
  model : String
  convInvoked : Bool
  source : SepSource
  stems : List (String × String)
deriving Repr, DecidableEq

/-- Collect step of `separate`: the expected stem names in their fixed
order, keeping exactly those whose file exists, each encoded as an inline
audio payload. -/
def collectStems (env : SepEnv) : List (String × String) :=
  EXPECTED_STEMS.filterMap (fun n => (env.stemFile n).map (fun b => (n, encode_audio_file b)))

/-- Source `separate` endpoint: requires a filename; when its extension
(lowercased) is a recognized video extension, runs the conversion
collaborator and separates its output (500 on conversion failure, no
fallback); otherwise separates the original upload; 500 on model-init or
separation failure, on a missing output directory, and on an empty
collected stem set. -/
def separate (filename model : String) (env : SepEnv) : Except HTTPError SepOk :=
  if filename = "" then .error ⟨400, "Upload must include a filename."⟩
  else
    match
      (if strLower (pathSuffix filename) ∈ VIDEO_EXTENSIONS then
        match env.convert with
        | .error e => .error (⟨500, "Could not extract audio from video: " ++ e⟩ : HTTPError)
        | .ok audio => .ok (true, SepSource.convertedAudio audio)
      else .ok (false, SepSource.original filename) :
        Except HTTPError (Bool × SepSource)) with
    | .error err => .error err
    | .ok (convInvoked, src) =>
      match env.modelInit with
      | .error e => .error ⟨500, "Could not initialize Spleeter model " ++ model ++ ": " ++ e⟩
      | .ok _ =>
        match env.runSeparation with
        | .error e => .error ⟨500, "Stem separation failed: " ++ e⟩
        | .ok _ =>
          if env.outDirExists = false then
            .error ⟨500, "Stem service did not produce any files."⟩
          else
            if (collectStems env).isEmpty then
              .error ⟨500, "No stems were generated by Spleeter."⟩
            else .ok ⟨model, convInvoked, src, collectStems env⟩

/-- Concrete environment for the C7 witness. -/
def envC7 : SepEnv :=
  ⟨.ok [7], .ok (), .ok (), true, fun n => if n = "vocals" then some [1, 2] else none⟩

/-- Concrete environment yielding one stem, for the C8 witness. -/
def envC8ok : SepEnv :=
  ⟨.ok [], .ok (), .ok (), true, fun n => if n = "drums" then some [3] else none⟩

/-- Concrete environment yielding no stem, for the C8 witness. -/
def envC8none : SepEnv := ⟨.ok [], .ok (), .ok (), true, fun _ => none⟩

theorem lookupCode_setCode_self (k : String) (v : CodeEntry) (m : PendingMap) :
    lookupCode k (setCode k v m) = some v := by
  simp [setCode, lookupCode]

theorem lookupCode_eraseCode_self (k : String) (m : PendingMap) :
    lookupCode k (eraseCode k m) = none := by
  induction m with
  | nil => rfl
  | cons p rest ih =>
    by_cases h : p.1 = k
    · simpa [eraseCode, List.filter, h] using ih
    · simpa [eraseCode, List.filter, h, lookupCode] using ih

theorem countKey_setCode_self (k : String) (v : CodeEntry) (m : PendingMap) :
    countKey k (setCode k v m) = 1 := by
  have hnil : (eraseCode k m).filter (fun p => p.1 = k) = [] := by
    simp only [eraseCode, List.filter_filter]
    apply List.filter_eq_nil_iff.mpr
    intro p _
    by_cases h : p.1 = k <;> simp [h]
  simp [countKey, setCode, List.filter, hnil]

/-- C1: a code issued within the TTL redeems exactly once with the matching
code — the redemption returns the entry and deletes it — and a second
redemption for the same email and code fails with the NotFound error
(no code pending), at any later time. -/
theorem pop_verification_code_once_then_notFound
    (m : PendingMap) (email code : String) (tIssue tRedeem tAgain : Nat)
    (httl : ¬ tRedeem > tIssue + CODE_TTL) :
    pop_verification_code email code tRedeem (store_verification_code email code tIssue m) =
      (.ok ⟨code, tIssue + CODE_TTL⟩,
       eraseCode (normalize_email email) (store_verification_code email code tIssue m)) ∧
    pop_verification_code email code tAgain
        (pop_verification_code email code tRedeem (store_verification_code email code tIssue m)).2 =
      (.error ⟨400, "No verification code requested for this email."⟩,
       (pop_verification_code email code tRedeem (store_verification_code email code tIssue m)).2) := by
  have hl := lookupCode_setCode_self (normalize_email email) ⟨code, tIssue + CODE_TTL⟩ m
  have h1 : pop_verification_code email code tRedeem (store_verification_code email code tIssue m) =
      (.ok ⟨code, tIssue + CODE_TTL⟩,
       eraseCode (normalize_email email) (store_verification_code email code tIssue m)) := by
    simp [pop_verification_code, store_verification_code, hl, httl]
  refine ⟨h1, ?_⟩
  rw [h1]
  have h2 := lookupCode_eraseCode_self (normalize_email email)
    (store_verification_code email code tIssue m)
  simp [pop_verification_code, h2]

/-- Witness for C1 at a concrete input. -/
theorem pop_verification_code_once_then_notFound_witness :
    pop_verification_code "user@example.com" "123456" 5
        (store_verification_code "user@example.com" "123456" 0 []) =
      (.ok ⟨"123456", 0 + CODE_TTL⟩,
       eraseCode (normalize_email "user@example.com")
         (store_verification_code "user@example.com" "123456" 0 [])) ∧
    pop_verification_code "user@example.com" "123456" 9999
        (pop_verification_code "user@example.com" "123456" 5
          (store_verification_code "user@example.com" "123456" 0 [])).2 =
      (.error ⟨400, "No verification code requested for this email."⟩,
       (pop_verification_code "user@example.com" "123456" 5
         (store_verification_code "user@example.com" "123456" 0 [])).2) :=
  pop_verification_code_once_then_notFound [] "user@example.com" "123456" 0 5 9999 (by decide)

/-- C2: when the redemption instant is strictly after the stored expiry
(issue time plus the 10-minute TTL), redemption fails with the Expired
error for every submitted code — in particular for the matching one — so
the expiry check precedes the code-equality check. -/
theorem pop_verification_code_expired
    (m : PendingMap) (email code codeSub : String) (tIssue tRedeem : Nat)
    (h : tRedeem > tIssue + CODE_TTL) :
    pop_verification_code email codeSub tRedeem (store_verification_code email code tIssue m) =
      (.error ⟨400, "Verification code has expired."⟩,
       store_verification_code email code tIssue m) := by
  have hl := lookupCode_setCode_self (normalize_email email) ⟨code, tIssue + CODE_TTL⟩ m
  simp [pop_verification_code, store_verification_code, hl, h]

/-- Witness for C2 at a concrete input (matching code, past expiry). -/
theorem pop_verification_code_expired_witness :
    pop_verification_code "user@example.com" "123456" 601
        (store_verification_code "user@example.com" "123456" 0 []) =
      (.error ⟨400, "Verification code has expired."⟩,
       store_verification_code "user@example.com" "123456" 0 []) :=
  pop_verification_code_expired [] "user@example.com" "123456" "123456" 0 601 (by decide)

/-- C3: issuing a new code for an email replaces the old entry — the cache
holds exactly one binding for that normalized email afterwards — and the
old code is no longer redeemable: redeeming it fails with Expired when past
the new expiry and with Mismatch otherwise. -/
theorem store_verification_code_replaces_old
    (m : PendingMap) (email codeOld codeNew : String) (t₀ t₁ tRedeem : Nat)
    (hne : codeOld ≠ codeNew) :
    countKey (normalize_email email)
        (store_verification_code email codeNew t₁ (store_verification_code email codeOld t₀ m)) = 1 ∧
    pop_verification_code email codeOld tRedeem
        (store_verification_code email codeNew t₁ (store_verification_code email codeOld t₀ m)) =
      (.error (if tRedeem > t₁ + CODE_TTL then ⟨400, "Verification code has expired."⟩
               else ⟨400, "Invalid verification code."⟩),
       store_verification_code email codeNew t₁ (store_verification_code email codeOld t₀ m)) := by
  refine ⟨countKey_setCode_self _ _ _, ?_⟩
  have hl := lookupCode_setCode_self (normalize_email email) ⟨codeNew, t₁ + CODE_TTL⟩
    (setCode (normalize_email email) ⟨codeOld, t₀ + CODE_TTL⟩ m)
  by_cases h : tRedeem > t₁ + CODE_TTL
  · simp [pop_verification_code, store_verification_code, hl, h]
  · have hcc : codeNew ≠ codeOld := fun hx => hne hx.symm
    simp [pop_verification_code, store_verification_code, hl, h, hcc]

/-- Witness for C3 at a concrete input (redemption of the old code within
the new TTL fails with Mismatch; exactly one binding remains). -/
theorem store_verification_code_replaces_old_witness :
    countKey (normalize_email "user@example.com")
        (store_verification_code "user@example.com" "222222" 10
          (store_verification_code "user@example.com" "111111" 0 [])) = 1 ∧
    pop_verification_code "user@example.com" "111111" 20
        (store_verification_code "user@example.com" "222222" 10
          (store_verification_code "user@example.com" "111111" 0 [])) =
      (.error (if 20 > 10 + CODE_TTL then ⟨400, "Verification code has expired."⟩
               else ⟨400, "Invalid verification code."⟩),
       store_verification_code "user@example.com" "222222" 10
         (store_verification_code "user@example.com" "111111" 0 [])) :=
  store_verification_code_replaces_old [] "user@example.com" "111111" "222222" 0 10 20 (by decide)

theorem lookupAccount_setAccount_self (k : String) (v : Account) (m : AccountMap) :
    lookupAccount k (setAccount k v m) = some v := by
  simp [setAccount, lookupAccount]

theorem isoZ_ne_empty (t : Nat) : isoZ t ≠ "" := by
  intro h
  have hd := congrArg String.data h
  simp [isoZ, String.data_append] at hd

theorem record_account_createdAt_ne_empty (email name hash : String) (now : Nat)
    (accounts : AccountMap) :
    (record_account email name hash now accounts).1.createdAt ≠ "" := by
  cases hx : lookupAccount (normalize_email email) accounts with
  | none => simp [record_account, hx, isoZ_ne_empty]
  | some a =>
    by_cases hy : a.createdAt = "" <;> simp [record_account, hx, hy, isoZ_ne_empty]

/-- C5: a second `record_account` call for the same normalized email key
preserves the creation timestamp produced by the first call and overwrites
name, password hash and the update timestamp; the written record is what
the table then holds for that key. -/
theorem record_account_idempotent_createdAt
    (accounts : AccountMap) (email n₁ h₁ n₂ h₂ : String) (t₁ t₂ : Nat) :
    (record_account email n₂ h₂ t₂ (record_account email n₁ h₁ t₁ accounts).2).1.createdAt
      = (record_account email n₁ h₁ t₁ accounts).1.createdAt ∧
    (record_account email n₂ h₂ t₂ (record_account email n₁ h₁ t₁ accounts).2).1.name = n₂ ∧
    (record_account email n₂ h₂ t₂ (record_account email n₁ h₁ t₁ accounts).2).1.passwordHash = h₂ ∧
    (record_account email n₂ h₂ t₂ (record_account email n₁ h₁ t₁ accounts).2).1.updatedAt = isoZ t₂ ∧
    lookupAccount (normalize_email email)
        (record_account email n₂ h₂ t₂ (record_account email n₁ h₁ t₁ accounts).2).2
      = some (record_account email n₂ h₂ t₂ (record_account email n₁ h₁ t₁ accounts).2).1 := by
  have hlk : lookupAccount (normalize_email email) (record_account email n₁ h₁ t₁ accounts).2
      = some (record_account email n₁ h₁ t₁ accounts).1 := by
    have : (record_account email n₁ h₁ t₁ accounts).2
        = setAccount (normalize_email email) (record_account email n₁ h₁ t₁ accounts).1 accounts := rfl
    rw [this, lookupAccount_setAccount_self]
  have hcne := record_account_createdAt_ne_empty email n₁ h₁ t₁ accounts
  refine ⟨?_, ?_, ?_, ?_, ?_⟩
  · show (match lookupAccount (normalize_email email) (record_account email n₁ h₁ t₁ accounts).2 with
      | none => isoZ t₂
      | some a => if a.createdAt = "" then isoZ t₂ else a.createdAt)
      = (record_account email n₁ h₁ t₁ accounts).1.createdAt
    rw [hlk]
    simp [hcne]
  · rfl
  · rfl
  · rfl
  · exact lookupAccount_setAccount_self _ _ _

/-- C4: with a code pending, a verify attempt with a wrong code fails with
the Mismatch error and leaves the whole server state unchanged; a
subsequent verify with the correct code (within TTL, with a password)
succeeds and returns a summary whose email matches and whose `createdAt`
is nonempty. -/
theorem verify_code_mismatch_then_success
    (hashFn : String → String) (pending₀ : PendingMap) (accounts₀ : AccountMap)
    (e c cw pw nm : String) (t₀ t₁ t₂ : Nat)
    (he : strTrim e = e) (hene : e ≠ "")
    (hc : strTrim c = c) (hcne : c ≠ "")
    (hw : strTrim cw = cw) (hwne : cw ≠ "") (hwc : cw ≠ c)
    (hpw : pw ≠ "")
    (ht₁ : ¬ t₁ > t₀ + CODE_TTL) (ht₂ : ¬ t₂ > t₀ + CODE_TTL) :
    verify_code hashFn ⟨some e, some cw, some pw, none, some nm⟩ t₁
        ⟨store_verification_code e c t₀ pending₀, accounts₀⟩ =
      (.error ⟨400, "Invalid verification code."⟩,
       ⟨store_verification_code e c t₀ pending₀, accounts₀⟩) ∧
    ∃ summary st₂,
      verify_code hashFn ⟨some e, some c, some pw, none, some nm⟩ t₂
          ⟨store_verification_code e c t₀ pending₀, accounts₀⟩ = (.ok summary, st₂) ∧
      summary.email = e ∧ summary.createdAt ≠ "" := by
  have hl := lookupCode_setCode_self (normalize_email e) ⟨c, t₀ + CODE_TTL⟩ pending₀
  have hcc : c ≠ cw := fun hx => hwc hx.symm
  have hpopw : pop_verification_code e cw t₁ (store_verification_code e c t₀ pending₀) =
      (.error ⟨400, "Invalid verification code."⟩, store_verification_code e c t₀ pending₀) := by
    simp [pop_verification_code, store_verification_code, hl, ht₁, hcc]
  have hpopr : pop_verification_code e c t₂ (store_verification_code e c t₀ pending₀) =
      (.ok ⟨c, t₀ + CODE_TTL⟩,
       eraseCode (normalize_email e) (store_verification_code e c t₀ pending₀)) := by
    simp [pop_verification_code, store_verification_code, hl, ht₂]
  constructor
  · simp [verify_code, orEmpty, he, hw, hene, hwne, hpw, hpopw]
  · refine ⟨⟨(record_account e (strTrim nm) (hashFn pw) t₂ accounts₀).1.email,
        (record_account e (strTrim nm) (hashFn pw) t₂ accounts₀).1.name,
        (record_account e (strTrim nm) (hashFn pw) t₂ accounts₀).1.createdAt,
        (record_account e (strTrim nm) (hashFn pw) t₂ accounts₀).1.updatedAt⟩,
      ⟨eraseCode (normalize_email e) (store_verification_code e c t₀ pending₀),
       (record_account e (strTrim nm) (hashFn pw) t₂ accounts₀).2⟩, ?_, ?_, ?_⟩
    · simp [verify_code, orEmpty, he, hc, hene, hcne, hpw, hpopr]
    · rfl
    · exact record_account_createdAt_ne_empty e (strTrim nm) (hashFn pw) t₂ accounts₀

/-- Witness for C4 at a concrete input. -/
theorem verify_code_mismatch_then_success_witness :
    verify_code (fun s => s) ⟨some "user@example.com", some "654321", some "secret", none, some "Pat"⟩ 1
        ⟨store_verification_code "user@example.com" "123456" 0 [], []⟩ =
      (.error ⟨400, "Invalid verification code."⟩,
       ⟨store_verification_code "user@example.com" "123456" 0 [], []⟩) ∧
    ∃ summary st₂,
      verify_code (fun s => s) ⟨some "user@example.com", some "123456", some "secret", none, some "Pat"⟩ 2
          ⟨store_verification_code "user@example.com" "123456" 0 [], []⟩ = (.ok summary, st₂) ∧
      summary.email = "user@example.com" ∧ summary.createdAt ≠ "" :=
  verify_code_mismatch_then_success (fun s => s) [] []
    "user@example.com" "123456" "654321" "secret" "Pat" 0 1 2
    (by decide) (by decide) (by decide) (by decide) (by decide) (by decide) (by decide)
    (by decide) (by decide) (by decide)

theorem writeStems_error_of_bad_stem (entries : List (String × JVal))
    (files : List (String × List Nat))
    (hfail : ∃ p ∈ entries, ∃ s e, p.2 = JVal.str s ∧ decode_data_url s = .error e) :
    ∃ d fs, writeStems entries files = (.error ⟨400, d⟩, fs) := by
  induction entries generalizing files with
  | nil => simp at hfail
  | cons head rest ih =>
    obtain ⟨name, v⟩ := head
    cases v with
    | nonstr =>
      obtain ⟨p, hp, s, e, hps, hdec⟩ := hfail
      rcases List.mem_cons.mp hp with hhd | htl
      · rw [hhd] at hps; simp at hps
      · simpa [writeStems] using ih files ⟨p, htl, s, e, hps, hdec⟩
    | str s₀ =>
      cases hdec₀ : decode_data_url s₀ with
      | error e₀ =>
        exact ⟨"Could not decode stem " ++ name ++ ": " ++ e₀, files, by
          simp [writeStems, hdec₀]⟩
      | ok data =>
        obtain ⟨p, hp, s, e, hps, hdec⟩ := hfail
        rcases List.mem_cons.mp hp with hhd | htl
        · rw [hhd] at hps
          simp only [JVal.str.injEq] at hps
          rw [hps] at hdec₀
          rw [hdec] at hdec₀
          cases hdec₀
        · simpa [writeStems, hdec₀] using
            ih (files ++ [(name, data)]) ⟨p, htl, s, e, hps, hdec⟩

/-- C6: when any stem value of a library-create request is a string that
fails to decode, the whole operation fails with a 400 Validation error and
no session record (metadata) is created. -/
theorem save_library_fails_on_bad_stem (title : Option String)
    (entries : List (String × JVal)) (item_id : String) (now : Nat)
    (hfail : ∃ p ∈ entries, ∃ s e, p.2 = JVal.str s ∧ decode_data_url s = .error e) :
    (∃ d, (save_library title (some entries) item_id now).1 = .error ⟨400, d⟩) ∧
    sessionRecord (save_library title (some entries) item_id now).2 = none := by
  have hne : entries.isEmpty = false := by
    obtain ⟨p, hp, _⟩ := hfail
    cases entries with
    | nil => simp at hp
    | cons a l => rfl
  obtain ⟨d, fs, hw⟩ := writeStems_error_of_bad_stem entries [] hfail
  refine ⟨⟨d, ?_⟩, ?_⟩ <;> simp [save_library, hne, hw, sessionRecord]

/-- Witness for C6 at a concrete input: a data URL without a base64 tag. -/
theorem save_library_fails_on_bad_stem_witness :
    (∃ d, (save_library (some "My mix") (some [("vocals", JVal.str "data:audio/wav,AAAA")])
        "id0" 0).1 = .error ⟨400, d⟩) ∧
    sessionRecord (save_library (some "My mix")
        (some [("vocals", JVal.str "data:audio/wav,AAAA")]) "id0" 0).2 = none :=
  save_library_fails_on_bad_stem (some "My mix") [("vocals", JVal.str "data:audio/wav,AAAA")]
    "id0" 0
    ⟨("vocals", JVal.str "data:audio/wav,AAAA"), by decide, "data:audio/wav,AAAA",
     "Unsupported data URL format", rfl, rfl⟩

theorem writeStems_all_nonstring (entries : List (String × JVal))
    (files : List (String × List Nat))
    (hall : ∀ p ∈ entries, p.2 = JVal.nonstr) :
    writeStems entries files = (.ok (), files) := by
  induction entries with
  | nil => rfl
  | cons head rest ih =>
    cases head with
    | mk name v =>
      have hv : v = JVal.nonstr := hall (name, v) (List.mem_cons_self _ _)
      subst hv
      exact (ih fun p hp => hall p (List.mem_cons_of_mem _ hp))

/-- C10: a library-create whose stems mapping is nonempty but holds only
non-string values succeeds silently writing no file, its metadata lists
every key of the request mapping (a nonempty list), and a subsequent get
of the session returns an empty stems mapping. -/
theorem save_library_nonstring_stems_metadata_mismatch (title : Option String)
    (entries : List (String × JVal)) (item_id : String) (now : Nat)
    (hne : entries ≠ [])
    (hall : ∀ p ∈ entries, p.2 = JVal.nonstr) :
    ∃ meta, (save_library title (some entries) item_id now).1 = .ok meta ∧
      meta.stems = entries.map Prod.fst ∧ meta.stems ≠ [] ∧
      get_library_item (save_library title (some entries) item_id now).2 = .ok (meta, []) := by
  have hemp : entries.isEmpty = false := by
    cases entries with
    | nil => exact absurd rfl hne
    | cons a l => rfl
  have hw := writeStems_all_nonstring entries [] hall
  refine ⟨⟨item_id, titleOrDefault title, entries.map Prod.fst, isoZ now,
    "/api/library/" ++ item_id ++ "/bundle"⟩, ?_, rfl, ?_, ?_⟩
  · simp [save_library, hemp, hw]
  · simpa using hne
  · simp [save_library, hemp, hw, get_library_item]

/-- Witness for C10 at a concrete input: one stem key bound to a number. -/
theorem save_library_nonstring_stems_metadata_mismatch_witness :
    ∃ meta, (save_library none (some [("vocals", JVal.nonstr)]) "id1" 0).1 = .ok meta ∧
      meta.stems = [("vocals", JVal.nonstr)].map Prod.fst ∧ meta.stems ≠ [] ∧
      get_library_item (save_library none (some [("vocals", JVal.nonstr)]) "id1" 0).2 =
        .ok (meta, []) :=
  save_library_nonstring_stems_metadata_mismatch none [("vocals", JVal.nonstr)] "id1" 0
    (by decide) (by decide)

/-- C9: listing returns exactly one record per session whose metadata
parses — a permutation of the parsed records, so unparseable ones are
skipped — and the returned sequence is sorted ascending by the
creation-timestamp string. -/
theorem list_library_sorted_and_complete (fs : List MetaFile) :
    (list_library fs).Perm (fs.filterMap parsedMeta) ∧
    (list_library fs).Pairwise (fun a b => a.createdAt ≤ b.createdAt) := by
  constructor
  · exact List.mergeSort_perm _ _
  · have h := @List.sorted_mergeSort LibMeta
      (fun a b : LibMeta => decide (a.createdAt ≤ b.createdAt))
      (fun a b c hab hbc => by
        simp only [decide_eq_true_eq] at *
        exact le_trans hab hbc)
      (fun a b => by
        simp only [Bool.or_eq_true, decide_eq_true_eq]
        exact le_total a.createdAt b.createdAt)
      (fs.filterMap parsedMeta)
    exact h.imp (fun hab => by simpa using hab)

theorem mem_collectStems (env : SepEnv) (p : String × String) (hp : p ∈ collectStems env) :
    p.1 ∈ EXPECTED_STEMS ∧ ∃ rest, p.2 = "data:audio/wav;base64," ++ rest := by
  unfold collectStems at hp
  obtain ⟨n, hn, hmap⟩ := List.mem_filterMap.mp hp
  cases hb : env.stemFile n with
  | none => rw [hb] at hmap; cases hmap
  | some b =>
    rw [hb] at hmap
    simp only [Option.map_some', Option.some.injEq] at hmap
    rw [← hmap]
    exact ⟨hn, ⟨⟨b64encodeChars b⟩, rfl⟩⟩

/-- Inversion of a successful `separate` run: the response carries the
collected stems (nonempty), the conversion flag equal to the video test,
and the matching source. -/
theorem separate_ok_inversion (f m : String) (env : SepEnv) (r : SepOk)
    (hr : separate f m env = .ok r) :
    r.stems = collectStems env ∧ (collectStems env).isEmpty = false ∧
    ((strLower (pathSuffix f) ∈ VIDEO_EXTENSIONS ∧ r.convInvoked = true ∧
        ∃ audio, env.convert = .ok audio ∧ r.source = .convertedAudio audio) ∨
      (strLower (pathSuffix f) ∉ VIDEO_EXTENSIONS ∧ r.convInvoked = false ∧
        r.source = .original f)) := by
  obtain ⟨conv, mi, rs, dirEx, sf⟩ := env
  by_cases hf : f = ""
  · rw [separate, if_pos hf] at hr; cases hr
  · by_cases hvid : strLower (pathSuffix f) ∈ VIDEO_EXTENSIONS
    · cases conv with
      | error e => simp [separate, hf, hvid] at hr
      | ok audio =>
        cases mi with
        | error e => simp [separate, hf, hvid] at hr
        | ok u =>
          cases rs with
          | error e => simp [separate, hf, hvid] at hr
          | ok u₂ =>
            cases dirEx with
            | false => simp [separate, hf, hvid] at hr
            | true =>
              by_cases hst :
                  (collectStems ⟨.ok audio, .ok u, .ok u₂, true, sf⟩).isEmpty = true
              · simp [separate, hf, hvid, hst] at hr
              · rw [separate, if_neg hf] at hr
                simp only [if_pos hvid] at hr
                rw [if_neg (by simp), if_neg hst] at hr
                cases hr
                exact ⟨rfl, Bool.not_eq_true _ |>.mp hst,
                  Or.inl ⟨hvid, rfl, audio, rfl, rfl⟩⟩
    · cases mi with
      | error e => simp [separate, hf, hvid] at hr
      | ok u =>
        cases rs with
        | error e => simp [separate, hf, hvid] at hr
        | ok u₂ =>
          cases dirEx with
          | false => simp [separate, hf, hvid] at hr
          | true =>
            by_cases hst :
                (collectStems ⟨conv, .ok u, .ok u₂, true, sf⟩).isEmpty = true
            · simp [separate, hf, hvid, hst] at hr
            · rw [separate, if_neg hf] at hr
              simp only [if_neg hvid] at hr
              rw [if_neg (by simp), if_neg hst] at hr
              cases hr
              exact ⟨rfl, Bool.not_eq_true _ |>.mp hst,
                Or.inr ⟨hvid, rfl, rfl⟩⟩

/-- C7: for a filename whose lowercased extension is a recognized video
extension, conversion is invoked before separation — its failure yields
the 500 UpstreamError with no fallback, and on success the converted audio
is what gets separated; for every other extension conversion is skipped
and the original upload is separated. -/
theorem separate_conversion_policy (f m : String) (env : SepEnv) (hf : f ≠ "") :
    (strLower (pathSuffix f) ∈ VIDEO_EXTENSIONS →
      (∀ e, env.convert = .error e →
        separate f m env = .error ⟨500, "Could not extract audio from video: " ++ e⟩) ∧
      (∀ audio r, env.convert = .ok audio → separate f m env = .ok r →
        r.convInvoked = true ∧ r.source = .convertedAudio audio)) ∧
    (strLower (pathSuffix f) ∉ VIDEO_EXTENSIONS →
      ∀ r, separate f m env = .ok r →
        r.convInvoked = false ∧ r.source = .original f) := by
  constructor
  · intro hvid
    constructor
    · intro e hce
      simp [separate, hf, hvid, hce]
    · intro audio r hconv hr
      rcases separate_ok_inversion f m env r hr with ⟨-, -, h | h⟩
      · obtain ⟨-, hci, audio₂, hconv₂, hsrc⟩ := h
        rw [hconv] at hconv₂
        cases hconv₂
        exact ⟨hci, hsrc⟩
      · exact absurd hvid h.1
  · intro hvid r hr
    rcases separate_ok_inversion f m env r hr with ⟨-, -, h | h⟩
    · exact absurd h.1 hvid
    · exact ⟨h.2.1, h.2.2⟩

/-- Witness for C7: a `.mp4` upload converts, and the converted audio is
what gets separated. -/
theorem separate_conversion_policy_witness :
    separate "clip.mp4" "spleeter:4stems" envC7 =
      .ok ⟨"spleeter:4stems", true, .convertedAudio [7], [("vocals", encode_audio_file [1, 2])]⟩ ∧
    (⟨"spleeter:4stems", true, .convertedAudio [7],
        [("vocals", encode_audio_file [1, 2])]⟩ : SepOk).convInvoked = true ∧
    (⟨"spleeter:4stems", true, .convertedAudio [7],
        [("vocals", encode_audio_file [1, 2])]⟩ : SepOk).source = .convertedAudio [7] := by
  have hsep : separate "clip.mp4" "spleeter:4stems" envC7 =
      .ok ⟨"spleeter:4stems", true, .convertedAudio [7],
        [("vocals", encode_audio_file [1, 2])]⟩ := rfl
  have h := ((separate_conversion_policy "clip.mp4" "spleeter:4stems" envC7
    (by decide)).1 (by decide)).2 [7] _ rfl hsep
  exact ⟨hsep, h.1, h.2⟩

/-- C8: every successful separation response has a nonempty stem mapping
whose keys come from the fixed vocabulary and whose values are tagged
inline audio payloads; and when every expected stem file is absent (the
other steps passing), the request fails with the 500 UpstreamError. -/
theorem separate_response_stems (f m : String) (env : SepEnv) :
    (∀ r, separate f m env = .ok r → r.stems ≠ [] ∧
      ∀ p ∈ r.stems, p.1 ∈ EXPECTED_STEMS ∧ ∃ rest, p.2 = "data:audio/wav;base64," ++ rest) ∧
    (f ≠ "" →
      (strLower (pathSuffix f) ∉ VIDEO_EXTENSIONS ∨ ∃ audio, env.convert = .ok audio) →
      env.modelInit = .ok () → env.runSeparation = .ok () → env.outDirExists = true →
      (∀ n ∈ EXPECTED_STEMS, env.stemFile n = none) →
      separate f m env = .error ⟨500, "No stems were generated by Spleeter."⟩) := by
  constructor
  · intro r hr
    obtain ⟨hstems, hne, -⟩ := separate_ok_inversion f m env r hr
    constructor
    · rw [hstems]
      intro hnil
      rw [hnil] at hne
      simp at hne
    · intro p hp
      rw [hstems] at hp
      exact mem_collectStems env p hp
  · intro hf hsrc hmi hrs hd hnone
    have h1 : env.stemFile "vocals" = none := hnone "vocals" (by simp [EXPECTED_STEMS])
    have h2 : env.stemFile "drums" = none := hnone "drums" (by simp [EXPECTED_STEMS])
    have h3 : env.stemFile "bass" = none := hnone "bass" (by simp [EXPECTED_STEMS])
    have h4 : env.stemFile "other" = none := hnone "other" (by simp [EXPECTED_STEMS])
    have hcol : collectStems env = [] := by
      simp [collectStems, EXPECTED_STEMS, h1, h2, h3, h4]
    rcases hsrc with hvid | ⟨audio, hconv⟩
    · simp [separate, hf, hvid, hmi, hrs, hd, hcol]
    · by_cases hvid : strLower (pathSuffix f) ∈ VIDEO_EXTENSIONS
      · simp [separate, hf, hvid, hconv, hmi, hrs, hd, hcol]
      · simp [separate, hf, hvid, hmi, hrs, hd, hcol]

/-- Witness for C8: a plain audio upload yielding one stem, and one
yielding none. -/
theorem separate_response_stems_witness :
    ((⟨"spleeter:4stems", false, .original "song.mp3",
        [("drums", encode_audio_file [3])]⟩ : SepOk).stems ≠ [] ∧
      ∀ p ∈ (⟨"spleeter:4stems", false, .original "song.mp3",
        [("drums", encode_audio_file [3])]⟩ : SepOk).stems,
        p.1 ∈ EXPECTED_STEMS ∧ ∃ rest, p.2 = "data:audio/wav;base64," ++ rest) ∧
    separate "song.mp3" "spleeter:4stems" envC8none =
      .error ⟨500, "No stems were generated by Spleeter."⟩ :=
  ⟨(separate_response_stems "song.mp3" "spleeter:4stems" envC8ok).1
      ⟨"spleeter:4stems", false, .original "song.mp3", [("drums", encode_audio_file [3])]⟩ rfl,
   (separate_response_stems "song.mp3" "spleeter:4stems" envC8none).2 (by decide)
      (Or.inl (by decide)) rfl rfl rfl (fun n _ => rfl)⟩

end StemLab
